import Mathlib

/-!
Verification of the realtime-translation backend's protocol core.

Shallow embedding of `src/backend/app/realtime/conversation.py`
(`RealtimeConversation`), `src/backend/app/realtime/client.py`
(`RealtimeClient`) and `src/backend/app/realtime/event_system.py`
(`RealtimeEventHandler`).  Python byte strings are modelled as `List Nat`
(one entry per byte), dicts keyed by strings as ordered association lists
(Python dicts preserve insertion order), and in-place mutation of an item
that is shared between `item_lookup` and `items` is modelled by updating the
value at every occurrence of the item's id, which is what object aliasing
does in the source.  A handler that raises is modelled by an `err` result
carrying the state as it is at the moment of the raise, so that partial
mutation before a raise stays observable.
-/

namespace Realtime

/-- Python `bytes`, one list entry per byte. -/
abbrev Bytes := List Nat

/-- Python slice `l[st:en]` with non-negative indices (clamping included). -/
def pySlice (l : List α) (st en : Nat) : List α :=
  (l.take en).drop st

/-- Ordered association list standing for a Python `dict[str, α]`. -/
abbrev AList (α : Type) := List (String × α)

/-- `d.get(k)`: value of the first (unique) entry with key `k`. -/
def aget (l : AList α) (k : String) : Option α :=
  match l with
  | [] => none
  | (k0, v0) :: t => if k0 = k then some v0 else aget t k

/-- `d[k] = v`: replace the entry for `k` in place, or append a new one. -/
def aset (l : AList α) (k : String) (v : α) : AList α :=
  match l with
  | [] => [(k, v)]
  | (k0, v0) :: t => if k0 = k then (k, v) :: t else (k0, v0) :: aset t k v

/-- `del d[k]`: drop the (unique) entry for `k`. -/
def aerase (l : AList α) (k : String) : AList α :=
  match l with
  | [] => []
  | (k0, v0) :: t => if k0 = k then t else (k0, v0) :: aerase t k

/-- One element of an item's `content` list. -/
structure ContentPart where
  ctype : String
  text : String
  transcript : String
deriving DecidableEq, Repr

/-- The `formatted.tool` sub-record built for `function_call` items. -/
structure ToolFmt where
  ttype : String
  name : String
  call_id : String
  arguments : String
deriving DecidableEq, Repr

/-- The derived `formatted` aggregate of an item. -/
structure Formatted where
  audio : Bytes
  text : String
  transcript : String
  tool : Option ToolFmt
  output : Option String
deriving DecidableEq, Repr

/-- `new_item['formatted'] = {'audio': [], 'text': '', 'transcript': ''}`. -/
def Formatted.init : Formatted :=
  { audio := [], text := "", transcript := "", tool := none, output := none }

/-- The `event['item']` payload of `conversation.item.created` (and of
`response.output_item.*`): an item as it arrives, before formatting. -/
structure ItemIn where
  id : String
  itype : String
  role : String
  status : String
  content : Option (List ContentPart)
  name : String
  call_id : String
  arguments : String
  output : String
deriving DecidableEq, Repr

/-- A conversation item as stored in the state (always carries `formatted`,
which `_process_item_created` assigns before any other handler can see it). -/
structure Item where
  id : String
  itype : String
  role : String
  status : String
  content : Option (List ContentPart)
  name : String
  call_id : String
  arguments : String
  output : String
  formatted : Formatted
deriving DecidableEq, Repr

/-- `new_item = item.copy()` followed by the `formatted` initialisation. -/
def itemFromIn (it : ItemIn) : Item :=
  { id := it.id, itype := it.itype, role := it.role, status := it.status,
    content := it.content, name := it.name, call_id := it.call_id,
    arguments := it.arguments, output := it.output, formatted := Formatted.init }

/-- A `response` record: id plus the ordered list of output item ids. -/
structure Response where
  id : String
  output : List String
deriving DecidableEq, Repr

/-- A queued speech segment: `{'audio_start_ms': ..}` on speech-started,
`audio_end_ms` and possibly `audio` added on speech-stopped. -/
structure QueuedSpeech where
  audio_start_ms : Nat
  audio_end_ms : Option Nat
  audio : Option Bytes
deriving DecidableEq, Repr

/-- The whole `RealtimeConversation` state. -/
structure ConvState where
  item_lookup : AList Item
  items : List Item
  response_lookup : AList Response
  responses : List Response
  queued_speech_items : AList QueuedSpeech
  queued_transcript_items : AList String
  queued_input_audio : Option Bytes
deriving DecidableEq, Repr

/-- `clear()`: reset all conversation state (also the `__init__` state). -/
def clearState : ConvState :=
  { item_lookup := [], items := [], response_lookup := [], responses := [],
    queued_speech_items := [], queued_transcript_items := [],
    queued_input_audio := none }

/-- `queue_input_audio`: remember audio for the next user message. -/
def ConvState.queue_input_audio (s : ConvState) (input_audio : Bytes) : ConvState :=
  { s with queued_input_audio := some input_audio }

/-- `get_item`: `self.item_lookup.get(item_id)`. -/
def ConvState.getItem (s : ConvState) (item_id : String) : Option Item :=
  aget s.item_lookup item_id

/-- `default_frequency = 24000  # 24 kHz PCM16`. -/
def default_frequency : Nat := 24000

/-- In-place mutation of an item that is aliased from both `item_lookup`
and `items`: write the new value at its id in both structures. -/
def ConvState.setItem (s : ConvState) (it : Item) : ConvState :=
  { s with item_lookup := aset s.item_lookup it.id it,
           items := s.items.map (fun j => if j.id = it.id then it else j) }

/-- Same aliasing treatment for a response mutated in place. -/
def ConvState.setResponse (s : ConvState) (r : Response) : ConvState :=
  { s with response_lookup := aset s.response_lookup r.id r,
           responses := s.responses.map (fun x => if x.id = r.id then r else x) }

/-- The server events of `RealtimeConversation.EventProcessors`, one
constructor per key of the dict; `other` stands for any type string that is
not a key.  The base64 decoding of `response.audio.delta` payloads happens
in `audio_utils.base64_to_array_buffer` before the bytes matter, so the
delta is carried here already as bytes. -/
inductive Event where
  | itemCreated (item : ItemIn)
  | itemTruncated (item_id : String) (audio_end_ms : Nat)
  | itemDeleted (item_id : String)
  | transcriptionCompleted (item_id : String) (content_index : Nat) (transcript : String)
  | speechStarted (item_id : String) (audio_start_ms : Nat)
  | speechStopped (item_id : String) (audio_end_ms : Nat)
  | responseCreated (response : Response)
  | outputItemAdded (response_id : String) (item : ItemIn)
  | outputItemDone (item : Option ItemIn)
  | contentPartAdded (item_id : String) (part : ContentPart)
  | audioTranscriptDelta (item_id : String) (content_index : Nat) (delta : String)
  | audioDelta (item_id : String) (content_index : Nat) (delta : Bytes)
  | textDelta (item_id : String) (content_index : Nat) (delta : String)
  | fnCallArgsDelta (item_id : String) (delta : String)
  | other (etype : String)
deriving DecidableEq, Repr

/-- The `event['type']` string of each event. -/
def Event.typeName : Event → String
  | .itemCreated _ => "conversation.item.created"
  | .itemTruncated _ _ => "conversation.item.truncated"
  | .itemDeleted _ => "conversation.item.deleted"
  | .transcriptionCompleted _ _ _ => "conversation.item.input_audio_transcription.completed"
  | .speechStarted _ _ => "input_audio_buffer.speech_started"
  | .speechStopped _ _ => "input_audio_buffer.speech_stopped"
  | .responseCreated _ => "response.created"
  | .outputItemAdded _ _ => "response.output_item.added"
  | .outputItemDone _ => "response.output_item.done"
  | .contentPartAdded _ _ => "response.content_part.added"
  | .audioTranscriptDelta _ _ _ => "response.audio_transcript.delta"
  | .audioDelta _ _ _ => "response.audio.delta"
  | .textDelta _ _ _ => "response.text.delta"
  | .fnCallArgsDelta _ _ => "response.function_call_arguments.delta"
  | .other t => t

/-- The second component of a processor's return value. -/
inductive Delta where
  | transcript (s : String)
  | audio (b : Bytes)
  | text (s : String)
  | args (s : String)
deriving DecidableEq, Repr

/-- Result of one `process_event` call.  `err` carries the state exactly as
it stands at the moment the Python code raises, so mutations that happen
before a raise are part of the result. -/
inductive PResult where
  | ok (s : ConvState) (item : Option Item) (delta : Option Delta)
  | err (s : ConvState) (msg : String)
deriving DecidableEq, Repr

/-- The state after a `process_event` call, raising or not. -/
def PResult.state : PResult → ConvState
  | .ok s _ _ => s
  | .err s _ => s

/-- Replace the element at index `i` (used for
`item['content'][content_index][...] = / +=`). -/
def modifyAt (l : List α) (i : Nat) (f : α → α) : List α :=
  match l, i with
  | [], _ => []
  | x :: t, 0 => f x :: t
  | x :: t, i + 1 => x :: modifyAt t i f

/-- Lines 143-146: the text of the `text` / `input_text` content parts,
appended in order. -/
def contentText (cs : List ContentPart) : String :=
  match cs with
  | [] => ""
  | c :: t =>
    (if c.ctype = "text" ∨ c.ctype = "input_text" then c.text else "")
      ++ contentText t

/-- `if self.queued_input_audio:` — truthy means present and non-empty. -/
def truthyBytes : Option Bytes → Bool
  | none => false
  | some b => !b.isEmpty

/-- Lines 143-172 of `_process_item_created`: everything after the queued
speech merge — text content, queued transcript, and the per-type
classification.  Threads the state because of the queued-table deletions
and the `queued_input_audio` consumption. -/
def itemCreatedRest (s : ConvState) (it : Item) : ConvState × Item :=
  let it1 :=
    match it.content with
    | some cs => { it with formatted := { it.formatted with text := it.formatted.text ++ contentText cs } }
    | none => it
  let (s2, it2) :=
    match aget s.queued_transcript_items it1.id with
    | some tr =>
      ({ s with queued_transcript_items := aerase s.queued_transcript_items it1.id },
       { it1 with formatted := { it1.formatted with transcript := tr } })
    | none => (s, it1)
  if it2.itype = "message" then
    if it2.role = "user" then
      let it3 := { it2 with status := "completed" }
      if truthyBytes s2.queued_input_audio then
        match s2.queued_input_audio with
        | some b =>
          ({ s2 with queued_input_audio := none },
           { it3 with formatted := { it3.formatted with audio := b } })
        | none => (s2, it3)
      else (s2, it3)
    else (s2, { it2 with status := "in_progress" })
  else if it2.itype = "function_call" then
    let tl : ToolFmt :=
      { ttype := "function", name := it2.name, call_id := it2.call_id, arguments := "" }
    let fm := { it2.formatted with tool := some tl }
    (s2, { it2 with status := "in_progress", formatted := fm })
  else if it2.itype = "function_call_output" then
    let fm := { it2.formatted with output := some it2.output }
    (s2, { it2 with status := "completed", formatted := fm })
  else (s2, it2)

/-- `_process_item_created`.  The Python code first inserts `new_item` into
both structures when its id is new (lines 129-131) and then keeps mutating
the same object, so the stored value tracks every later mutation; when the
id is a duplicate the stored item is a different object and stays as it
was.  Nothing between the insertion and the return reads the stored entry,
so committing the final value of `new_item` at each step is equivalent;
`insert` below is applied to whatever the item's value is when control
leaves the handler (normally the fully formatted item, on the `KeyError`
raise of line 140 the item with its freshly initialised `formatted`). -/
def processItemCreated (s : ConvState) (itIn : ItemIn) : PResult :=
  let base := itemFromIn itIn
  let inserted := (aget s.item_lookup base.id).isNone
  let insert : Item → ConvState → ConvState := fun it s' =>
    if inserted then
      { s' with item_lookup := aset s'.item_lookup it.id it,
                items := s'.items ++ [it] }
    else s'
  match aget s.queued_speech_items base.id with
  | some q =>
    match q.audio with
    | none =>
      -- line 140 reads `['audio']` on a queued entry that has no such key
      -- (speech started but not yet stopped, or an empty buffer at stop)
      .err (insert base s) "KeyError: audio"
    | some a =>
      let it0 := { base with formatted := { base.formatted with audio := a } }
      let s1 := { s with queued_speech_items := aerase s.queued_speech_items base.id }
      let r := itemCreatedRest s1 it0
      .ok (insert r.2 r.1) (some r.2) none
  | none =>
    let r := itemCreatedRest s base
    .ok (insert r.2 r.1) (some r.2) none

/-- `_process_item_truncated`: slice `formatted.audio` to the sample index
`audio_end_ms * default_frequency // 1000` and clear the transcript. -/
def processItemTruncated (s : ConvState) (item_id : String) (audio_end_ms : Nat) : PResult :=
  match s.getItem item_id with
  | none => .err s ("item.truncated: Item " ++ item_id ++ " not found")
  | some it =>
    let end_index := audio_end_ms * default_frequency / 1000
    let it' := { it with formatted := { it.formatted with
                   transcript := "", audio := it.formatted.audio.take end_index } }
    .ok (s.setItem it') (some it') none

/-- `_process_item_deleted`: remove from the lookup and from the ordered
list (`list.remove` drops the first element equal to the looked-up item). -/
def processItemDeleted (s : ConvState) (item_id : String) : PResult :=
  match s.getItem item_id with
  | none => .err s ("item.deleted: Item " ++ item_id ++ " not found")
  | some it =>
    .ok { s with item_lookup := aerase s.item_lookup it.id,
                 items := s.items.erase it } (some it) none

/-- `_process_input_audio_transcription_completed`. -/
def processTranscriptionCompleted (s : ConvState) (item_id : String)
    (content_index : Nat) (transcript : String) : PResult :=
  let formatted_transcript := if transcript = "" then " " else transcript
  match s.getItem item_id with
  | none =>
    let q := aset s.queued_transcript_items item_id formatted_transcript
    .ok { s with queued_transcript_items := q } none none
  | some it =>
    match it.content with
    | none => .err s "KeyError: content"
    | some cs =>
      if content_index < cs.length then
        let cs' := modifyAt cs content_index (fun c => { c with transcript := transcript })
        let fm := { it.formatted with transcript := formatted_transcript }
        let it' := { it with content := some cs', formatted := fm }
        .ok (s.setItem it') (some it') (some (.transcript transcript))
      else .err s "IndexError: list index out of range"

/-- `_process_speech_started`: record the start in the queued-speech table. -/
def processSpeechStarted (s : ConvState) (item_id : String) (audio_start_ms : Nat) : PResult :=
  let sp : QueuedSpeech := { audio_start_ms := audio_start_ms, audio_end_ms := none, audio := none }
  .ok { s with queued_speech_items := aset s.queued_speech_items item_id sp } none none

/-- `_process_speech_stopped`: `self.queued_speech_items[item_id]` raises
`KeyError` when no speech-started preceded; with a non-empty buffer the
slice `[start_index:end_index]` is stored in the queued entry. -/
def processSpeechStopped (s : ConvState) (item_id : String) (audio_end_ms : Nat)
    (input_audio_buffer : Bytes) : PResult :=
  match aget s.queued_speech_items item_id with
  | none => .err s ("KeyError: " ++ item_id)
  | some sp =>
    let sp1 := { sp with audio_end_ms := some audio_end_ms }
    let sp2 :=
      if input_audio_buffer = [] then sp1
      else
        let start_index := sp1.audio_start_ms * default_frequency / 1000
        let end_index := audio_end_ms * default_frequency / 1000
        { sp1 with audio := some (pySlice input_audio_buffer start_index end_index) }
    .ok { s with queued_speech_items := aset s.queued_speech_items item_id sp2 } none none

/-- `_process_response_created`: register the response when its id is new. -/
def processResponseCreated (s : ConvState) (response : Response) : PResult :=
  if (aget s.response_lookup response.id).isSome then .ok s none none
  else
    .ok { s with response_lookup := aset s.response_lookup response.id response,
                 responses := s.responses ++ [response] } none none

/-- `_process_output_item_added`: append the item id to the owning
response's output list; raises when the response is unknown. -/
def processOutputItemAdded (s : ConvState) (response_id : String) (item : ItemIn) : PResult :=
  match aget s.response_lookup response_id with
  | none => .err s ("response.output_item.added: Response " ++ response_id ++ " not found")
  | some r =>
    .ok (s.setResponse { r with output := r.output ++ [item.id] }) none none

/-- `_process_output_item_done`: set the stored item's status from the
event; raises on a missing payload or an unknown item. -/
def processOutputItemDone (s : ConvState) (item : Option ItemIn) : PResult :=
  match item with
  | none => .err s "response.output_item.done: Missing item"
  | some it =>
    match s.getItem it.id with
    | none => .err s ("response.output_item.done: Item " ++ it.id ++ " not found")
    | some found =>
      let found' := { found with status := it.status }
      .ok (s.setItem found') (some found') none

/-- `_process_content_part_added`: append a part to `item['content']`. -/
def processContentPartAdded (s : ConvState) (item_id : String) (part : ContentPart) : PResult :=
  match s.getItem item_id with
  | none => .err s ("response.content_part.added: Item " ++ item_id ++ " not found")
  | some it =>
    match it.content with
    | none => .err s "KeyError: content"
    | some cs =>
      let it' := { it with content := some (cs ++ [part]) }
      .ok (s.setItem it') (some it') none

/-- `_process_audio_transcript_delta`: append the delta to the addressed
content part's transcript and to `formatted.transcript`. -/
def processAudioTranscriptDelta (s : ConvState) (item_id : String)
    (content_index : Nat) (delta : String) : PResult :=
  match s.getItem item_id with
  | none => .err s ("response.audio_transcript.delta: Item " ++ item_id ++ " not found")
  | some it =>
    match it.content with
    | none => .err s "KeyError: content"
    | some cs =>
      if content_index < cs.length then
        let cs' := modifyAt cs content_index (fun c => { c with transcript := c.transcript ++ delta })
        let fm := { it.formatted with transcript := it.formatted.transcript ++ delta }
        let it' := { it with content := some cs', formatted := fm }
        .ok (s.setItem it') (some it') (some (.transcript delta))
      else .err s "IndexError: list index out of range"

/-- `_process_audio_delta`: an unknown item is only logged; the item is
left untouched (the accumulation into `formatted.audio` is commented out in
the source) and the decoded bytes are returned as the delta. -/
def processAudioDelta (s : ConvState) (item_id : String)
    (_content_index : Nat) (delta : Bytes) : PResult :=
  match s.getItem item_id with
  | none => .ok s none none
  | some it => .ok s (some it) (some (.audio delta))

/-- `_process_text_delta`: append the delta to the addressed content part's
text and to `formatted.text`. -/
def processTextDelta (s : ConvState) (item_id : String)
    (content_index : Nat) (delta : String) : PResult :=
  match s.getItem item_id with
  | none => .err s ("response.text.delta: Item " ++ item_id ++ " not found")
  | some it =>
    match it.content with
    | none => .err s "KeyError: content"
    | some cs =>
      if content_index < cs.length then
        let cs' := modifyAt cs content_index (fun c => { c with text := c.text ++ delta })
        let fm := { it.formatted with text := it.formatted.text ++ delta }
        let it' := { it with content := some cs', formatted := fm }
        .ok (s.setItem it') (some it') (some (.text delta))
      else .err s "IndexError: list index out of range"

/-- `_process_function_call_arguments_delta`: line 507 appends to the raw
`arguments` string before line 508 touches `formatted.tool`, so an item
without a tool record raises only after the first append — a genuine
partial mutation, kept visible in the `err` state. -/
def processFnCallArgsDelta (s : ConvState) (item_id : String) (delta : String) : PResult :=
  match s.getItem item_id with
  | none => .err s ("response.function_call_arguments.delta: Item " ++ item_id ++ " not found")
  | some it =>
    let it1 := { it with arguments := it.arguments ++ delta }
    match it1.formatted.tool with
    | none => .err (s.setItem it1) "KeyError: tool"
    | some tl =>
      let tl' := { tl with arguments := tl.arguments ++ delta }
      let it2 := { it1 with formatted := { it1.formatted with tool := some tl' } }
      .ok (s.setItem it2) (some it2) (some (.args delta))

/-- `process_event`: dispatch on the event type; a type that is not a key
of `EventProcessors` raises.  The extra positional argument that the client
passes for `speech_stopped` is the live input-audio buffer. -/
def processEvent (s : ConvState) (e : Event) (input_audio_buffer : Bytes) : PResult :=
  match e with
  | .itemCreated it => processItemCreated s it
  | .itemTruncated id ms => processItemTruncated s id ms
  | .itemDeleted id => processItemDeleted s id
  | .transcriptionCompleted id ci tr => processTranscriptionCompleted s id ci tr
  | .speechStarted id ms => processSpeechStarted s id ms
  | .speechStopped id ms => processSpeechStopped s id ms input_audio_buffer
  | .responseCreated r => processResponseCreated s r
  | .outputItemAdded rid it => processOutputItemAdded s rid it
  | .outputItemDone it => processOutputItemDone s it
  | .contentPartAdded id p => processContentPartAdded s id p
  | .audioTranscriptDelta id ci d => processAudioTranscriptDelta s id ci d
  | .audioDelta id ci d => processAudioDelta s id ci d
  | .textDelta id ci d => processTextDelta s id ci d
  | .fnCallArgsDelta id d => processFnCallArgsDelta s id d
  | .other t => .err s ("Missing conversation event processor for " ++ t)

/-- Process a list of events in arrival order, stopping at the first
raise (an uncaught exception ends the processing loop). -/
def runEvents (s : ConvState) (input_audio_buffer : Bytes) : List Event → Except (ConvState × String) ConvState
  | [] => .ok s
  | e :: rest =>
    match processEvent s e input_audio_buffer with
    | .ok s' _ _ => runEvents s' input_audio_buffer rest
    | .err s' m => .error (s', m)

/-!
Embedding of `RealtimeClient` (`src/backend/app/realtime/client.py`).
`realtime.send(type, data)` calls are modelled by returning the list of
commands sent, in order.  Tool handlers are arbitrary Python callables, so
the two externally-determined steps of `_call_tool` —
`json.loads(tool['arguments'])` and `await handler(**json_arguments)`
followed by `json.dumps(result)` — enter the model as `Except` parameters.
-/

/-- A registered tool definition (`definition` dict); `name` is the field
`add_tool` validates, the rest of the JSON schema is opaque here. -/
structure ToolDef where
  name : String
  schema : String
deriving DecidableEq, Repr

/-- `{**tool_definition, "type": "function"}` as built by `update_session`. -/
structure TaggedTool where
  name : String
  schema : String
  ttype : String
deriving DecidableEq, Repr

/-- Tag a definition with `"type": "function"`. -/
def tagTool (d : ToolDef) : TaggedTool :=
  { name := d.name, schema := d.schema, ttype := "function" }

/-- The `output` field of a `function_call_output` item sent back to the
model: either `json.dumps(result)` of a successful handler, or
`json.dumps({"error": str(e)})` built in the except branch. -/
inductive FnOutput where
  | json (s : String)
  | errorObj (message : String)
deriving DecidableEq, Repr

/-- Outbound commands passed to `self.realtime.send`. -/
inductive Cmd where
  | inputAudioBufferCommit
  | responseCreate
  | sessionUpdate (tools : List TaggedTool)
  | conversationItemCreate (call_id : String) (output : FnOutput)
  | inputAudioBufferAppend (audio : Bytes)
  | conversationItemDelete (item_id : String)
  | responseCancel
deriving DecidableEq, Repr

/-- The client state that the modelled operations touch.  `turnDetection`
is `get_turn_detection_type()`, i.e.
`session_config.get("turn_detection", {}).get("type")`; `sessionTools` is
`session_config["tools"]`; `tools` is the registry `self.tools` (definitions
only — handlers are modelled at the call site); `connected` is
`self.realtime.is_connected()`. -/
structure ClientState where
  connected : Bool
  turnDetection : Option String
  sessionTools : List ToolDef
  tools : AList ToolDef
  input_audio_buffer : Bytes
  conversation : ConvState
deriving DecidableEq, Repr

/-- Result of a client operation: the commands sent plus the new state, or
a raised exception (which leaves the state as it stands at the raise). -/
inductive CResult where
  | ok (sent : List Cmd) (c : ClientState)
  | err (c : ClientState) (msg : String)
deriving DecidableEq, Repr

/-- `get_turn_detection_type`. -/
def get_turn_detection_type (c : ClientState) : Option String :=
  c.turnDetection

/-- `create_response`: with turn detection off and a non-empty local
buffer, commit the buffer, hand it to the conversation as queued input
audio and clear it; then always send `response.create`. -/
def create_response (c : ClientState) : List Cmd × ClientState :=
  if get_turn_detection_type c = none ∧ c.input_audio_buffer ≠ [] then
    ([Cmd.inputAudioBufferCommit, Cmd.responseCreate],
     { c with conversation := c.conversation.queue_input_audio c.input_audio_buffer,
              input_audio_buffer := [] })
  else ([Cmd.responseCreate], c)

/-- The `use_tools` list of `update_session`: session-level tools followed
by the registered tools, each tagged with `"type": "function"`. -/
def use_tools (c : ClientState) : List TaggedTool :=
  c.sessionTools.map tagTool ++ c.tools.map (fun p => tagTool p.2)

/-- `update_session` with no keyword arguments (as `add_tool` calls it):
builds the merged tool list and sends `session.update` when connected. -/
def update_session (c : ClientState) : List Cmd × ClientState :=
  ((if c.connected then [Cmd.sessionUpdate (use_tools c)] else []), c)

/-- `add_tool`: validations in source order (`definition.get("name")` is
falsy exactly for a missing or empty name), then store and push the
session.  `handlerCallable` is `callable(handler)`. -/
def add_tool (c : ClientState) (definition : ToolDef) (handlerCallable : Bool) : CResult :=
  if definition.name = "" then
    .err c "Missing tool name in definition"
  else if (aget c.tools definition.name).isSome then
    .err c ("Tool " ++ definition.name ++ " already added. Please use .removeTool before trying to add again.")
  else if !handlerCallable then
    .err c ("Tool " ++ definition.name ++ " handler must be a function")
  else
    let c1 := { c with tools := aset c.tools definition.name definition }
    let sent := (update_session c1).1
    .ok sent (update_session c1).2

/-- `remove_tool`: delete the registry entry and return `True`; no command
is sent. -/
def remove_tool (c : ClientState) (name : String) : CResult :=
  if (aget c.tools name).isNone then
    .err c ("Tool " ++ name ++ " does not exist, can not be removed.")
  else .ok [] { c with tools := aerase c.tools name }

/-- The `item['formatted']['tool']` record `_call_tool` receives. -/
structure ToolCall where
  name : String
  call_id : String
  arguments : String
deriving DecidableEq, Repr

/-- The try block of `_call_tool`: parse the arguments
(`json.loads(tool['arguments'])`, outcome `parseArgs`), look the tool up
(raising when absent), run the handler
(`await handler(**json_arguments)` plus `json.dumps`, outcome
`runHandler`); `.error` is any exception escaping the block. -/
def toolAttempt (c : ClientState) (tool : ToolCall)
    (parseArgs : Except String Unit) (runHandler : Except String String) :
    Except String String :=
  match parseArgs with
  | .error e => .error e
  | .ok _ =>
    match aget c.tools tool.name with
    | none => .error ("Tool " ++ tool.name ++ " has not been added")
    | some _ => runHandler

/-- `_call_tool`: send the serialized result of the try block, or — when
the block raised — a `function_call_output` carrying the error object built
in the except branch; afterwards `create_response()` always runs. -/
def call_tool (c : ClientState) (tool : ToolCall)
    (parseArgs : Except String Unit) (runHandler : Except String String) :
    List Cmd × ClientState :=
  let sent :=
    match toolAttempt c tool parseArgs runHandler with
    | .ok result => [Cmd.conversationItemCreate tool.call_id (FnOutput.json result)]
    | .error e => [Cmd.conversationItemCreate tool.call_id (FnOutput.errorObj e)]
  let r := create_response c
  (sent ++ r.1, r.2)

/-!
Embedding of `RealtimeEventHandler` (`src/backend/app/realtime/event_system.py`).
Futures are cells in an indexed store (`none` = pending); the closure that
`wait_for_next` registers is the `oneShot` handler, which resolves its
future only when the future is not yet done.  Ordinary subscribed callbacks
are `external` handlers whose invocations are logged. -/

/-- A registered handler. -/
inductive Handler where
  | external (hid : Nat)
  | oneShot (fid : Nat)
deriving DecidableEq, Repr

/-- The event-handler registry plus the futures the one-shot closures
capture and a log of external-handler invocations. -/
structure BusState where
  event_handlers : AList (List Handler)
  futures : List (Option String)
  fired : List (Nat × String)
deriving DecidableEq, Repr

/-- A fresh `RealtimeEventHandler`. -/
def emptyBus : BusState :=
  { event_handlers := [], futures := [], fired := [] }

/-- `on(event_name, handler)`: append to the defaultdict list. -/
def busOn (b : BusState) (event_name : String) (h : Handler) : BusState :=
  let hs := (aget b.event_handlers event_name).getD []
  { b with event_handlers := aset b.event_handlers event_name (hs ++ [h]) }

/-- Run one handler on a dispatched payload.  The one-shot closure body is
`if not future.done(): future.set_result(event)`. -/
def runHandler1 (b : BusState) (payload : String) : Handler → BusState
  | .external hid => { b with fired := b.fired ++ [(hid, payload)] }
  | .oneShot fid =>
    match b.futures.getD fid (some "") with
    | none => { b with futures := b.futures.set fid (some payload) }
    | some _ => b

/-- `dispatch(event_name, event)`: invoke every handler registered for the
exact name, in registration order.  No handler is removed. -/
def busDispatch (b : BusState) (event_name : String) (payload : String) : BusState :=
  ((aget b.event_handlers event_name).getD []).foldl
    (fun acc h => runHandler1 acc payload h) b

/-- `wait_for_next(event_name)`: create a pending future, register the
one-shot closure via `on`, and return (the bus,) the future. -/
def wait_for_next (b : BusState) (event_name : String) : BusState × Nat :=
  let fid := b.futures.length
  let b1 := { b with futures := b.futures ++ [none] }
  (busOn b1 event_name (.oneShot fid), fid)

/-!  Derived notions the claims quantify over, plus concrete fixtures for
witnesses and counterexamples. -/

/-- Whether an event references, through the id its handler requires to
pre-exist, an item or response that the state does not know (plus the
unrecognized-type case).  These are exactly the handlers that raise a
not-found error. -/
def refsUnknown (s : ConvState) : Event → Bool
  | .itemTruncated item_id _ => (s.getItem item_id).isNone
  | .itemDeleted item_id => (s.getItem item_id).isNone
  | .outputItemAdded response_id _ => (aget s.response_lookup response_id).isNone
  | .outputItemDone (some it) => (s.getItem it.id).isNone
  | .contentPartAdded item_id _ => (s.getItem item_id).isNone
  | .audioTranscriptDelta item_id _ _ => (s.getItem item_id).isNone
  | .textDelta item_id _ _ => (s.getItem item_id).isNone
  | .fnCallArgsDelta item_id _ => (s.getItem item_id).isNone
  | .other _ => true
  | _ => false

/-- A stream of `response.text.delta` events for one item and part. -/
def textDeltas (item_id : String) (content_index : Nat) (ds : List String) : List Event :=
  ds.map (fun d => Event.textDelta item_id content_index d)

/-- Concatenation of a list of strings, in order. -/
def concatAll : List String → String
  | [] => ""
  | d :: t => d ++ concatAll t

/-- The items/lookup agreement invariant: every listed item is registered
under its id, every registered entry lists its item under the right id, and
neither structure holds an id twice. -/
def itemsAgree (s : ConvState) : Prop :=
  (∀ it ∈ s.items, (it.id, it) ∈ s.item_lookup) ∧
  (∀ p ∈ s.item_lookup, (p : String × Item).2 ∈ s.items ∧ p.2.id = p.1) ∧
  (s.items.map Item.id).Nodup ∧
  (s.item_lookup.map Prod.fst).Nodup

/-- A plain incoming user message with the given id. -/
def userMsgIn (id : String) : ItemIn :=
  { id := id, itype := "message", role := "user", status := "", content := none,
    name := "", call_id := "", arguments := "", output := "" }

/-- A stored user item with 48 bytes of audio and a pending transcript. -/
def wItem : Item :=
  { id := "w", itype := "message", role := "user", status := "completed",
    content := none, name := "", call_id := "", arguments := "", output := "",
    formatted := { audio := List.replicate 48 7, text := "", transcript := "t",
                   tool := none, output := none } }

/-- A conversation holding just `wItem`. -/
def wState : ConvState :=
  { clearState with item_lookup := [("w", wItem)], items := [wItem] }

/-- A stored assistant item with one empty text content part. -/
def vItem : Item :=
  { id := "v", itype := "message", role := "assistant", status := "in_progress",
    content := some [{ ctype := "text", text := "", transcript := "" }],
    name := "", call_id := "", arguments := "", output := "",
    formatted := Formatted.init }

/-- A conversation holding just `vItem`. -/
def vState : ConvState :=
  { clearState with item_lookup := [("v", vItem)], items := [vItem] }

/-- A connected client with server VAD on and nothing buffered. -/
def baseClient : ClientState :=
  { connected := true, turnDetection := some "server_vad", sessionTools := [],
    tools := [], input_audio_buffer := [], conversation := clearState }

/-- A small tool definition for concrete runs. -/
def toolA : ToolDef := { name := "a", schema := "s" }

/-- The client after `self.tools[name] = ...` for a definition. -/
def withTool (c : ClientState) (d : ToolDef) : ClientState :=
  { c with tools := aset c.tools d.name d }

/-- The client after `del self.tools[name]`. -/
def withoutTool (c : ClientState) (name : String) : ClientState :=
  { c with tools := aerase c.tools name }

/-- The client after `create_response` drained the input buffer into the
conversation's queued input audio. -/
def drainBuffer (c : ClientState) : ClientState :=
  { c with conversation := c.conversation.queue_input_audio c.input_audio_buffer,
           input_audio_buffer := [] }

/-! Association-list lemmas used throughout the proofs. -/

theorem aget_eq_none_iff (l : AList α) (k : String) :
    aget l k = none ↔ k ∉ l.map Prod.fst := by
  induction l with
  | nil => simp [aget]
  | cons p t ih =>
    obtain ⟨k0, v0⟩ := p
    by_cases h : k0 = k
    · simp [aget, h]
    · simp [aget, h, ih, Ne.symm h]

theorem aget_isSome_iff (l : AList α) (k : String) :
    (aget l k).isSome ↔ k ∈ l.map Prod.fst := by
  rcases ho : aget l k with _ | v
  · simp [(aget_eq_none_iff l k).mp ho]
  · simp only [Option.isSome_some, true_iff]
    by_contra hk
    rw [← aget_eq_none_iff l k] at hk
    rw [hk] at ho
    exact Option.noConfusion ho

theorem aget_eq_some_mem {l : AList α} {k : String} {v : α}
    (h : aget l k = some v) : (k, v) ∈ l := by
  induction l with
  | nil => simp [aget] at h
  | cons p t ih =>
    obtain ⟨k0, v0⟩ := p
    by_cases hk : k0 = k
    · simp [aget, hk] at h
      simp [hk, h]
    · simp [aget, hk] at h
      exact List.mem_cons_of_mem _ (ih h)

theorem exists_of_mem_keys {l : AList α} {k : String}
    (h : k ∈ l.map Prod.fst) : ∃ v, (k, v) ∈ l := by
  rcases List.mem_map.mp h with ⟨⟨k1, v1⟩, hp, hk⟩
  subst hk
  exact ⟨v1, hp⟩

theorem get_aset_self (l : AList α) (k : String) (v : α) :
    aget (aset l k v) k = some v := by
  induction l with
  | nil => simp [aget, aset]
  | cons p t ih =>
    obtain ⟨k0, v0⟩ := p
    by_cases h : k0 = k <;> simp [aget, aset, h, ih]

theorem get_aset_ne (l : AList α) (k k' : String) (v : α) (h : k' ≠ k) :
    aget (aset l k v) k' = aget l k' := by
  induction l with
  | nil => simp [aget, aset, Ne.symm h]
  | cons p t ih =>
    obtain ⟨k0, v0⟩ := p
    by_cases hk : k0 = k
    · subst hk
      simp [aget, aset, Ne.symm h]
    · simp only [aset, if_neg hk]
      by_cases hk' : k0 = k' <;> simp [aget, hk', ih]

theorem mem_aset_self (l : AList α) (k : String) (v : α) :
    (k, v) ∈ aset l k v := by
  induction l with
  | nil => simp [aset]
  | cons p t ih =>
    obtain ⟨k0, v0⟩ := p
    by_cases h : k0 = k <;> simp [aset, h, ih]

theorem mem_aset_of_ne {l : AList α} {p : String × α} (k : String) (v : α)
    (hm : p ∈ l) (h : p.1 ≠ k) : p ∈ aset l k v := by
  induction l with
  | nil => simp at hm
  | cons q t ih =>
    obtain ⟨k0, v0⟩ := q
    rcases List.mem_cons.mp hm with hq | hq
    · subst hq
      by_cases hk : k0 = k
      · exact absurd hk h
      · simp [aset, hk]
    · by_cases hk : k0 = k
      · simp only [aset, if_pos hk, List.mem_cons]
        exact Or.inr hq
      · simp only [aset, if_neg hk, List.mem_cons]
        exact Or.inr (ih hq)

theorem mem_aset_elim {l : AList α} {p : String × α} {k : String} {v : α}
    (hm : p ∈ aset l k v) : p = (k, v) ∨ p ∈ l := by
  induction l with
  | nil => simpa [aset] using hm
  | cons q t ih =>
    obtain ⟨k0, v0⟩ := q
    by_cases hk : k0 = k
    · simp [aset, hk] at hm
      rcases hm with hm | hm
      · exact Or.inl (by simp [hm])
      · exact Or.inr (List.mem_cons_of_mem _ hm)
    · simp only [aset, if_neg hk, List.mem_cons] at hm
      rcases hm with hm | hm
      · exact Or.inr (by simp [hm])
      · rcases ih hm with h | h
        · exact Or.inl h
        · exact Or.inr (List.mem_cons_of_mem _ h)

theorem mem_aset_strong {l : AList α} {p : String × α} {k : String} {v : α}
    (hn : (l.map Prod.fst).Nodup) (hm : p ∈ aset l k v) :
    p = (k, v) ∨ (p ∈ l ∧ p.1 ≠ k) := by
  induction l with
  | nil => simpa [aset] using hm
  | cons q t ih =>
    obtain ⟨k0, v0⟩ := q
    simp only [List.map_cons, List.nodup_cons] at hn
    by_cases hk : k0 = k
    · subst hk
      simp [aset] at hm
      rcases hm with hm | hm
      · exact Or.inl hm
      · refine Or.inr ⟨List.mem_cons_of_mem _ hm, ?_⟩
        intro h1
        exact hn.1 (h1 ▸ List.mem_map_of_mem Prod.fst hm)
    · simp only [aset, if_neg hk, List.mem_cons] at hm
      rcases hm with hm | hm
      · subst hm
        exact Or.inr ⟨List.mem_cons_self _ _, hk⟩
      · rcases ih hn.2 hm with h | h
        · exact Or.inl h
        · exact Or.inr ⟨List.mem_cons_of_mem _ h.1, h.2⟩

theorem keys_aset_of_mem {l : AList α} {k : String} (v : α)
    (h : k ∈ l.map Prod.fst) : (aset l k v).map Prod.fst = l.map Prod.fst := by
  induction l with
  | nil => simp at h
  | cons q t ih =>
    obtain ⟨k0, v0⟩ := q
    by_cases hk : k0 = k
    · simp [aset, hk]
    · simp only [List.map_cons] at h
      rcases List.mem_cons.mp h with h | h
      · exact absurd h.symm hk
      · simp [aset, hk, ih h]

theorem keys_aset_of_not_mem {l : AList α} {k : String} (v : α)
    (h : k ∉ l.map Prod.fst) : aset l k v = l ++ [(k, v)] := by
  induction l with
  | nil => simp [aset]
  | cons q t ih =>
    obtain ⟨k0, v0⟩ := q
    simp only [List.map_cons, List.mem_cons] at h
    push_neg at h
    have hne : ¬k0 = k := fun he => h.1 he.symm
    simp [aset, hne, ih h.2]

theorem aerase_sublist (l : AList α) (k : String) : List.Sublist (aerase l k) l := by
  induction l with
  | nil => simp [aerase]
  | cons q t ih =>
    obtain ⟨k0, v0⟩ := q
    by_cases hk : k0 = k
    · simp only [aerase, if_pos hk]
      exact List.sublist_cons_self _ _
    · simp only [aerase, if_neg hk]
      exact ih.cons₂ _

theorem mem_aerase_of_ne {l : AList α} {p : String × α} (k : String)
    (hm : p ∈ l) (h : p.1 ≠ k) : p ∈ aerase l k := by
  induction l with
  | nil => simp at hm
  | cons q t ih =>
    obtain ⟨k0, v0⟩ := q
    rcases List.mem_cons.mp hm with hq | hq
    · subst hq
      by_cases hk : k0 = k
      · exact absurd hk h
      · simp [aerase, hk]
    · by_cases hk : k0 = k <;> simp [aerase, hk, hq, ih hq]

theorem mem_aerase_strong {l : AList α} {p : String × α} {k : String}
    (hn : (l.map Prod.fst).Nodup) (hm : p ∈ aerase l k) :
    p ∈ l ∧ p.1 ≠ k := by
  induction l with
  | nil => simp [aerase] at hm
  | cons q t ih =>
    obtain ⟨k0, v0⟩ := q
    simp only [List.map_cons, List.nodup_cons] at hn
    by_cases hk : k0 = k
    · subst hk
      simp only [aerase, if_pos rfl] at hm
      refine ⟨List.mem_cons_of_mem _ hm, ?_⟩
      intro h1
      exact hn.1 (h1 ▸ List.mem_map_of_mem Prod.fst hm)
    · simp only [aerase, if_neg hk, List.mem_cons] at hm
      rcases hm with hm | hm
      · subst hm
        exact ⟨List.mem_cons_self _ _, hk⟩
      · rcases ih hn.2 hm with ⟨h1, h2⟩
        exact ⟨List.mem_cons_of_mem _ h1, h2⟩

theorem modifyAt_length (l : List α) (i : Nat) (f : α → α) :
    (modifyAt l i f).length = l.length := by
  induction l generalizing i with
  | nil => simp [modifyAt]
  | cons x t ih =>
    cases i with
    | zero => simp [modifyAt]
    | succ j => simp [modifyAt, ih]

/-- When no transcript is queued for the item and no input audio is
queued, `itemCreatedRest` leaves the state alone and changes neither the
item's id nor its `formatted.audio`. -/
theorem itemCreatedRest_spec (s : ConvState) (it : Item)
    (hq : aget s.queued_transcript_items it.id = none)
    (hqa : s.queued_input_audio = none) :
    (itemCreatedRest s it).1 = s ∧
    (itemCreatedRest s it).2.id = it.id ∧
    (itemCreatedRest s it).2.formatted.audio = it.formatted.audio := by
  unfold itemCreatedRest
  rcases hc : it.content with _ | cs <;>
    simp only [hc, hq, hqa, truthyBytes] <;>
      split_ifs <;> simp

/-! The claims. -/

deriving instance DecidableEq for Except

/-- C1 (counterexample): with speech at 0-1 ms inside a 48-byte buffer,
the arrival order speech-stopped, speech-started, item-created raises a
`KeyError` (`self.queued_speech_items[item_id]` before speech-started ran),
and the order item-created, speech-started, speech-stopped raises nothing
but leaves the item's `formatted.audio` empty instead of the non-empty
slice — so the six orders neither all succeed nor agree. -/
theorem c1_race_counterexample :
    runEvents clearState (List.range 48)
        [Event.speechStopped "i1" 1, Event.speechStarted "i1" 0,
         Event.itemCreated (userMsgIn "i1")]
      = .error (clearState, "KeyError: i1") ∧
    ((runEvents clearState (List.range 48)
        [Event.itemCreated (userMsgIn "i1"), Event.speechStarted "i1" 0,
         Event.speechStopped "i1" 1]).toOption.bind
          (fun s => (aget s.item_lookup "i1").map (fun it => it.formatted.audio)))
      = some [] ∧
    pySlice (List.range 48) (0 * default_frequency / 1000) (1 * default_frequency / 1000)
      ≠ [] := by
  decide

/-- C1 (amended): only the arrival order speech-started, speech-stopped,
item-created is handled: starting from a fresh conversation with a
non-empty input buffer, that order stores the item with `formatted.audio`
equal to the sample-index slice
`buffer[start*24000/1000 : end*24000/1000]`. -/
theorem c1_race_amended (itIn : ItemIn) (a b : Nat) (buf : Bytes) (hbuf : buf ≠ []) :
    ∃ s', runEvents clearState buf
        [Event.speechStarted itIn.id a, Event.speechStopped itIn.id b,
         Event.itemCreated itIn]
      = .ok s' ∧
      ∃ it, aget s'.item_lookup itIn.id = some it ∧
        it.formatted.audio
          = pySlice buf (a * default_frequency / 1000) (b * default_frequency / 1000) := by
  have h1 : processEvent clearState (Event.speechStarted itIn.id a) buf =
      .ok { clearState with queued_speech_items :=
              [(itIn.id, { audio_start_ms := a, audio_end_ms := none, audio := none })] }
        none none := by
    simp [processEvent, processSpeechStarted, clearState, aset]
  have h2 : processEvent ({ clearState with queued_speech_items :=
        [(itIn.id, { audio_start_ms := a, audio_end_ms := none, audio := none })] } : ConvState)
      (Event.speechStopped itIn.id b) buf =
      .ok { clearState with queued_speech_items := [(itIn.id, { audio_start_ms := a, audio_end_ms := some b, audio := some (pySlice buf (a * default_frequency / 1000) (b * default_frequency / 1000)) })] }
        none none := by
    simp [processEvent, processSpeechStopped, aget, aset, hbuf]
  simp only [runEvents, h1, h2]
  simp only [processEvent, processItemCreated]
  simp only [itemFromIn, clearState, aget, aerase, if_pos, eq_self_iff_true, if_true, Option.isNone_none]
  set S0 : ConvState := { item_lookup := [], items := [], response_lookup := [], responses := [], queued_speech_items := [], queued_transcript_items := [], queued_input_audio := none } with hS0
  set ITX : Item := { id := itIn.id, itype := itIn.itype, role := itIn.role, status := itIn.status, content := itIn.content, name := itIn.name, call_id := itIn.call_id, arguments := itIn.arguments, output := itIn.output, formatted := { audio := pySlice buf (a * default_frequency / 1000) (b * default_frequency / 1000), text := Formatted.init.text, transcript := Formatted.init.transcript, tool := Formatted.init.tool, output := Formatted.init.output } } with hITX
  obtain ⟨hA, hB, hC⟩ := itemCreatedRest_spec S0 ITX rfl rfl
  rw [hA, hB]
  set R2 : Item := (itemCreatedRest S0 ITX).2 with hR2
  refine ⟨_, rfl, R2, ?_, ?_⟩
  · show aget (aset S0.item_lookup ITX.id R2) itIn.id = some R2
    have e1 : aset S0.item_lookup ITX.id R2 = [(itIn.id, R2)] := rfl
    rw [e1]
    simp [aget]
  · rw [hC]

/-- Witness for C1 (amended) at a concrete utterance. -/
theorem c1_race_amended_witness :
    ∃ s', runEvents clearState (List.range 48)
        [Event.speechStarted (userMsgIn "i1").id 0, Event.speechStopped (userMsgIn "i1").id 1,
         Event.itemCreated (userMsgIn "i1")]
      = .ok s' ∧
      ∃ it, aget s'.item_lookup (userMsgIn "i1").id = some it ∧
        it.formatted.audio
          = pySlice (List.range 48) (0 * default_frequency / 1000) (1 * default_frequency / 1000) :=
  c1_race_amended (userMsgIn "i1") 0 1 (List.range 48) (by decide)

/-- C2 (counterexample): the stored user item starts with 96 bytes of
16-bit PCM — enough for a truncation at `T = 1` ms, which the claim says
leaves exactly `1 * 24000/1000 * 2 = 48` bytes; the code instead slices the
byte string at the sample count and leaves 24 bytes. -/
theorem c2_truncation_counterexample :
    (((processEvent (clearState.queue_input_audio (List.replicate 96 7))
        (Event.itemCreated (userMsgIn "i1")) []).state.getItem "i1").map
          (fun it => it.formatted.audio.length) = some 96) ∧
    1 * default_frequency / 1000 * 2 = 48 ∧
    (((processEvent ((processEvent (clearState.queue_input_audio (List.replicate 96 7))
          (Event.itemCreated (userMsgIn "i1")) []).state)
        (Event.itemTruncated "i1" 1) []).state.getItem "i1").map
          (fun it => (it.formatted.audio.length, it.formatted.transcript))
        = some (24, "")) ∧
    (24 ≠ 48) := by
  decide

/-- C2 (amended): truncating a known item at `audio_end_ms = T` leaves
`formatted.audio` equal to the prefix of `T * 24000/1000` byte-string
elements (the code indexes the byte string by sample count, not by
`2 ×` sample count) and clears `formatted.transcript`. -/
theorem c2_truncation_amended (s : ConvState) (id : String) (T : Nat) (it : Item)
    (hit : s.getItem id = some it)
    (hlen : T * default_frequency / 1000 ≤ it.formatted.audio.length) :
    ∃ it', processEvent s (Event.itemTruncated id T) [] = .ok (s.setItem it') (some it') none ∧
      it'.formatted.audio = it.formatted.audio.take (T * default_frequency / 1000) ∧
      it'.formatted.audio.length = T * default_frequency / 1000 ∧
      it'.formatted.transcript = "" := by
  refine ⟨{ it with formatted := { it.formatted with transcript := "", audio := it.formatted.audio.take (T * default_frequency / 1000) } }, ?_, rfl, ?_, rfl⟩
  · simp [processEvent, processItemTruncated, hit]
  · simp [List.length_take]
    omega

/-- Witness for C2 (amended) at a concrete state. -/
theorem c2_truncation_amended_witness :
    ∃ it', processEvent wState (Event.itemTruncated "w" 1) [] = .ok (wState.setItem it') (some it') none ∧
      it'.formatted.audio = wItem.formatted.audio.take (1 * default_frequency / 1000) ∧
      it'.formatted.audio.length = 1 * default_frequency / 1000 ∧
      it'.formatted.transcript = "" :=
  c2_truncation_amended wState "w" 1 wItem (by decide) (by decide)

/-- C3 (counterexample): after `wait_for_next` on a fresh bus and one
dispatch of the awaited event, the internal one-shot handler is still in
the registry — the claim says it is removed after the first firing. -/
theorem c3_waiter_counterexample :
    aget (busDispatch (wait_for_next emptyBus "e").1 "e" "p1").event_handlers "e"
        = some [Handler.oneShot 0] ∧
    aget (busDispatch (wait_for_next emptyBus "e").1 "e" "p1").event_handlers "e"
        ≠ some [] := by
  decide

/-- C3 (amended): the future returned by `wait_for_next` is fulfilled by
the next dispatched occurrence; the one-shot handler stays registered, and
a second dispatch re-invokes it but the `future.done()` guard keeps the
future at its first value. -/
theorem c3_waiter_amended (name p q : String) :
    (busDispatch (wait_for_next emptyBus name).1 name p).futures = [some p] ∧
    (busDispatch (busDispatch (wait_for_next emptyBus name).1 name p) name q).futures
        = [some p] ∧
    aget (busDispatch (wait_for_next emptyBus name).1 name p).event_handlers name
        = some [Handler.oneShot 0] := by
  simp [wait_for_next, emptyBus, busOn, busDispatch, runHandler1, aget, aset]

/-- C6: `create_response` sends `input_audio_buffer.commit` followed by
`response.create` and drains the buffer into the conversation's queued
input audio exactly when turn detection is off and the buffer is
non-empty; otherwise it sends `response.create` alone and changes
nothing. -/
theorem c6_create_response (c : ClientState) :
    (get_turn_detection_type c = none → c.input_audio_buffer ≠ [] →
        create_response c = ([Cmd.inputAudioBufferCommit, Cmd.responseCreate], drainBuffer c)) ∧
    (get_turn_detection_type c ≠ none ∨ c.input_audio_buffer = [] →
        create_response c = ([Cmd.responseCreate], c)) ∧
    ((create_response c).1 = [Cmd.inputAudioBufferCommit, Cmd.responseCreate] ∨
     (create_response c).1 = [Cmd.responseCreate]) := by
  unfold create_response drainBuffer
  by_cases h1 : get_turn_detection_type c = none <;>
    by_cases h2 : c.input_audio_buffer = [] <;>
      simp [h1, h2]

/-- Witness for C6 at concrete clients exercising both branches. -/
theorem c6_create_response_witness :
    create_response { baseClient with turnDetection := none, input_audio_buffer := [1, 2] }
        = ([Cmd.inputAudioBufferCommit, Cmd.responseCreate],
           drainBuffer { baseClient with turnDetection := none, input_audio_buffer := [1, 2] }) ∧
    create_response { baseClient with input_audio_buffer := [1, 2] }
        = ([Cmd.responseCreate], { baseClient with input_audio_buffer := [1, 2] }) :=
  ⟨(c6_create_response _).1 (by decide) (by decide),
   (c6_create_response _).2.1 (Or.inl (by decide))⟩

/-- C10: `remove_tool` on a registered name deletes the registry entry and
succeeds (returns `True`) without sending anything — in particular no
`session.update` — and leaves every other part of the client state
untouched. -/
theorem c10_remove_tool_frame (c : ClientState) (name : String)
    (h : (aget c.tools name).isSome) :
    remove_tool c name = .ok [] (withoutTool c name) ∧
    (withoutTool c name).connected = c.connected ∧
    (withoutTool c name).turnDetection = c.turnDetection ∧
    (withoutTool c name).sessionTools = c.sessionTools ∧
    (withoutTool c name).input_audio_buffer = c.input_audio_buffer ∧
    (withoutTool c name).conversation = c.conversation ∧
    (∀ ts : List TaggedTool, Cmd.sessionUpdate ts ∉ ([] : List Cmd)) := by
  rcases Option.isSome_iff_exists.mp h with ⟨v, hv⟩
  simp [remove_tool, hv, withoutTool]

/-- C5: every handler that requires a pre-existing item or response raises
on an unknown id, and `process_event` raises on an unrecognized type; in
each case the conversation state is returned exactly as it was (no partial
mutation). -/
theorem c5_unknown_reference (s : ConvState) (e : Event) (buf : Bytes)
    (h : refsUnknown s e = true) :
    ∃ m, processEvent s e buf = .err s m := by
  cases e with
  | itemTruncated id ms =>
    simp only [refsUnknown, Option.isNone_iff_eq_none] at h
    exact ⟨"item.truncated: Item " ++ id ++ " not found",
      by simp [processEvent, processItemTruncated, h]⟩
  | itemDeleted id =>
    simp only [refsUnknown, Option.isNone_iff_eq_none] at h
    exact ⟨"item.deleted: Item " ++ id ++ " not found",
      by simp [processEvent, processItemDeleted, h]⟩
  | outputItemAdded rid it =>
    simp only [refsUnknown, Option.isNone_iff_eq_none] at h
    exact ⟨"response.output_item.added: Response " ++ rid ++ " not found",
      by simp [processEvent, processOutputItemAdded, h]⟩
  | outputItemDone it =>
    cases it with
    | none => simp [refsUnknown] at h
    | some itIn =>
      simp only [refsUnknown, Option.isNone_iff_eq_none] at h
      exact ⟨"response.output_item.done: Item " ++ itIn.id ++ " not found",
        by simp [processEvent, processOutputItemDone, h]⟩
  | contentPartAdded id p =>
    simp only [refsUnknown, Option.isNone_iff_eq_none] at h
    exact ⟨"response.content_part.added: Item " ++ id ++ " not found",
      by simp [processEvent, processContentPartAdded, h]⟩
  | audioTranscriptDelta id ci d =>
    simp only [refsUnknown, Option.isNone_iff_eq_none] at h
    exact ⟨"response.audio_transcript.delta: Item " ++ id ++ " not found",
      by simp [processEvent, processAudioTranscriptDelta, h]⟩
  | textDelta id ci d =>
    simp only [refsUnknown, Option.isNone_iff_eq_none] at h
    exact ⟨"response.text.delta: Item " ++ id ++ " not found",
      by simp [processEvent, processTextDelta, h]⟩
  | fnCallArgsDelta id d =>
    simp only [refsUnknown, Option.isNone_iff_eq_none] at h
    exact ⟨"response.function_call_arguments.delta: Item " ++ id ++ " not found",
      by simp [processEvent, processFnCallArgsDelta, h]⟩
  | other t =>
    exact ⟨"Missing conversation event processor for " ++ t, by simp [processEvent]⟩
  | itemCreated it => simp [refsUnknown] at h
  | transcriptionCompleted id ci tr => simp [refsUnknown] at h
  | speechStarted id ms => simp [refsUnknown] at h
  | speechStopped id ms => simp [refsUnknown] at h
  | responseCreated r => simp [refsUnknown] at h
  | audioDelta id ci d => simp [refsUnknown] at h

/-- Witness for C5: an unknown item id and an unrecognized event type both
raise on the empty conversation and leave it unchanged. -/
theorem c5_unknown_reference_witness :
    (∃ m, processEvent clearState (Event.itemTruncated "ghost" 5) [] = .err clearState m) ∧
    (∃ m, processEvent clearState (Event.other "session.created") [] = .err clearState m) :=
  ⟨c5_unknown_reference clearState (Event.itemTruncated "ghost" 5) [] (by decide),
   c5_unknown_reference clearState (Event.other "session.created") [] (by decide)⟩

/-- C7: whenever the tool invocation fails — unparsable arguments, an
unregistered tool name, or a handler that raises — `_call_tool` still sends
exactly one `conversation.item.create` whose `function_call_output` carries
an error object, swallows the exception, and follows up with exactly one
`response.create` (possibly preceded by the buffer commit that
`create_response` decides on). -/
theorem c7_tool_error_output (c : ClientState) (tool : ToolCall)
    (parseArgs : Except String Unit) (runHandler : Except String String)
    (hfail : (∃ e, parseArgs = .error e) ∨ aget c.tools tool.name = none ∨
      (∃ e, runHandler = .error e)) :
    ∃ e, call_tool c tool parseArgs runHandler =
        (Cmd.conversationItemCreate tool.call_id (FnOutput.errorObj e) :: (create_response c).1,
         (create_response c).2) ∧
      ((create_response c).1 = [Cmd.inputAudioBufferCommit, Cmd.responseCreate] ∨
       (create_response c).1 = [Cmd.responseCreate]) := by
  have hatt : ∃ e, toolAttempt c tool parseArgs runHandler = .error e := by
    rcases parseArgs with e | u
    · exact ⟨e, rfl⟩
    · rcases hl : aget c.tools tool.name with _ | tc
      · exact ⟨"Tool " ++ tool.name ++ " has not been added", by simp [toolAttempt, hl]⟩
      · rcases hfail with ⟨e, hpe⟩ | hnone | ⟨e, hre⟩
        · exact absurd hpe (by simp)
        · rw [hl] at hnone
          exact absurd hnone (by simp)
        · exact ⟨e, by simp [toolAttempt, hl, hre]⟩
  rcases hatt with ⟨e, he⟩
  exact ⟨e, by simp [call_tool, he], (c6_create_response c).2.2⟩

/-- Witness for C7: a handler exception at a concrete client. -/
theorem c7_tool_error_output_witness :
    ∃ e, call_tool (withTool baseClient toolA)
          { name := "a", call_id := "c1", arguments := "x" }
          (Except.ok ()) (Except.error "boom") =
        (Cmd.conversationItemCreate "c1" (FnOutput.errorObj e)
            :: (create_response (withTool baseClient toolA)).1,
         (create_response (withTool baseClient toolA)).2) ∧
      ((create_response (withTool baseClient toolA)).1
          = [Cmd.inputAudioBufferCommit, Cmd.responseCreate] ∨
       (create_response (withTool baseClient toolA)).1 = [Cmd.responseCreate]) :=
  c7_tool_error_output (withTool baseClient toolA)
    { name := "a", call_id := "c1", arguments := "x" }
    (Except.ok ()) (Except.error "boom") (Or.inr (Or.inr ⟨"boom", rfl⟩))

/-- C8: `add_tool` raises on a missing name, a duplicate name or a
non-callable handler, each time leaving the registry (and the whole client)
unchanged so the first registration stays active; on success the definition
is stored under its name and `update_session` pushes the session
configuration whose tool list merges the session-level tools with every
registered tool, the new one included. -/
theorem c8_add_tool (c : ClientState) (d : ToolDef) (callable : Bool) :
    (d.name = "" → add_tool c d callable = .err c "Missing tool name in definition") ∧
    (d.name ≠ "" → (aget c.tools d.name).isSome → ∃ m, add_tool c d callable = .err c m) ∧
    (d.name ≠ "" → (aget c.tools d.name).isNone → callable = false →
        ∃ m, add_tool c d callable = .err c m) ∧
    (d.name ≠ "" → (aget c.tools d.name).isNone → callable = true →
        add_tool c d callable = .ok (update_session (withTool c d)).1 (withTool c d) ∧
        aget (withTool c d).tools d.name = some d ∧
        (c.connected = true →
          (update_session (withTool c d)).1 = [Cmd.sessionUpdate (use_tools (withTool c d))]) ∧
        tagTool d ∈ use_tools (withTool c d)) := by
  refine ⟨?_, ?_, ?_, ?_⟩
  · intro h
    simp [add_tool, h]
  · intro h hs
    rcases Option.isSome_iff_exists.mp hs with ⟨v, hv⟩
    exact ⟨"Tool " ++ d.name ++ " already added. Please use .removeTool before trying to add again.",
      by simp [add_tool, h, hv]⟩
  · intro h hn hc
    subst hc
    simp only [Option.isNone_iff_eq_none] at hn
    exact ⟨"Tool " ++ d.name ++ " handler must be a function", by simp [add_tool, h, hn]⟩
  · intro h hn hc
    subst hc
    simp only [Option.isNone_iff_eq_none] at hn
    refine ⟨by simp [add_tool, h, hn, withTool, update_session], ?_, ?_, ?_⟩
    · simpa [withTool] using get_aset_self c.tools d.name d
    · intro hcon
      simp [update_session, hcon, withTool]
    · have hmem : (d.name, d) ∈ aset c.tools d.name d := mem_aset_self c.tools d.name d
      have : tagTool d ∈ (aset c.tools d.name d).map (fun p => tagTool p.2) :=
        List.mem_map.mpr ⟨(d.name, d), hmem, rfl⟩
      exact List.mem_append_right _ (by simpa [withTool] using this)

/-- Witness for C8: registering a fresh tool on a concrete connected
client stores it and pushes the merged tool list. -/
theorem c8_add_tool_witness :
    add_tool baseClient toolA true
        = .ok (update_session (withTool baseClient toolA)).1 (withTool baseClient toolA) ∧
    aget (withTool baseClient toolA).tools toolA.name = some toolA ∧
    (baseClient.connected = true →
      (update_session (withTool baseClient toolA)).1
          = [Cmd.sessionUpdate (use_tools (withTool baseClient toolA))]) ∧
    tagTool toolA ∈ use_tools (withTool baseClient toolA) :=
  (c8_add_tool baseClient toolA true).2.2.2 (by decide) (by decide) rfl

/-- Witness for C10 at a concrete client holding one tool. -/
theorem c10_remove_tool_frame_witness :
    remove_tool (withTool baseClient toolA) "a" = .ok [] (withoutTool (withTool baseClient toolA) "a") ∧
    (withoutTool (withTool baseClient toolA) "a").connected = (withTool baseClient toolA).connected ∧
    (withoutTool (withTool baseClient toolA) "a").turnDetection = (withTool baseClient toolA).turnDetection ∧
    (withoutTool (withTool baseClient toolA) "a").sessionTools = (withTool baseClient toolA).sessionTools ∧
    (withoutTool (withTool baseClient toolA) "a").input_audio_buffer = (withTool baseClient toolA).input_audio_buffer ∧
    (withoutTool (withTool baseClient toolA) "a").conversation = (withTool baseClient toolA).conversation ∧
    (∀ ts : List TaggedTool, Cmd.sessionUpdate ts ∉ ([] : List Cmd)) :=
  c10_remove_tool_frame (withTool baseClient toolA) "a" (by decide)

/-- C9: processing `N` `response.text.delta` events for one item and
content part, in order, appends their concatenation to the item's
`formatted.text`, independent of the chunking and including empty
deltas. -/
theorem c9_text_delta_concat (s : ConvState) (id : String) (ci : Nat) (ds : List String)
    (it : Item) (cs : List ContentPart)
    (hit : s.getItem id = some it) (hid : it.id = id)
    (hc : it.content = some cs) (hci : ci < cs.length) :
    ∃ s' it' cs', runEvents s [] (textDeltas id ci ds) = .ok s' ∧
      s'.getItem id = some it' ∧ it'.id = id ∧ it'.content = some cs' ∧
      cs'.length = cs.length ∧
      it'.formatted.text = it.formatted.text ++ concatAll ds := by
  induction ds generalizing s it cs with
  | nil =>
    exact ⟨s, it, cs, rfl, hit, hid, hc, rfl, by simp [concatAll, String.append_empty]⟩
  | cons d dt ih =>
    have hstep : processEvent s (Event.textDelta id ci d) [] =
        .ok (s.setItem { it with content := some (modifyAt cs ci (fun c => { c with text := c.text ++ d })), formatted := { it.formatted with text := it.formatted.text ++ d } })
          (some { it with content := some (modifyAt cs ci (fun c => { c with text := c.text ++ d })), formatted := { it.formatted with text := it.formatted.text ++ d } })
          (some (.text d)) := by
      simp [processEvent, processTextDelta, hit, hc, hci]
    have hit1 : (s.setItem { it with content := some (modifyAt cs ci (fun c => { c with text := c.text ++ d })), formatted := { it.formatted with text := it.formatted.text ++ d } }).getItem id
        = some { it with content := some (modifyAt cs ci (fun c => { c with text := c.text ++ d })), formatted := { it.formatted with text := it.formatted.text ++ d } } := by
      show aget (aset s.item_lookup _ _) id = _
      rw [show ({ it with content := some (modifyAt cs ci (fun c => { c with text := c.text ++ d })), formatted := { it.formatted with text := it.formatted.text ++ d } } : Item).id = id from hid]
      exact get_aset_self _ _ _
    have hci1 : ci < (modifyAt cs ci (fun c => { c with text := c.text ++ d })).length := by
      rw [modifyAt_length]
      exact hci
    obtain ⟨s2, it2, cs2, hrun, hget, hid2, hc2, hlen, htext⟩ :=
      ih (s.setItem { it with content := some (modifyAt cs ci (fun c => { c with text := c.text ++ d })), formatted := { it.formatted with text := it.formatted.text ++ d } })
        { it with content := some (modifyAt cs ci (fun c => { c with text := c.text ++ d })), formatted := { it.formatted with text := it.formatted.text ++ d } }
        (modifyAt cs ci (fun c => { c with text := c.text ++ d }))
        hit1 hid rfl hci1
    refine ⟨s2, it2, cs2, ?_, hget, hid2, hc2, ?_, ?_⟩
    · simpa only [textDeltas, List.map_cons, runEvents, hstep] using hrun
    · rw [hlen, modifyAt_length]
    · rw [htext]
      show (it.formatted.text ++ d) ++ concatAll dt = _
      rw [String.append_assoc]
      rfl

/-- Witness for C9: three deltas (one empty) on a concrete item. -/
theorem c9_text_delta_concat_witness :
    ∃ s' it' cs', runEvents vState [] (textDeltas "v" 0 ["Hel", "", "lo"]) = .ok s' ∧
      s'.getItem "v" = some it' ∧ it'.id = "v" ∧ it'.content = some cs' ∧
      cs'.length = [({ ctype := "text", text := "", transcript := "" } : ContentPart)].length ∧
      it'.formatted.text = vItem.formatted.text ++ concatAll ["Hel", "", "lo"] :=
  c9_text_delta_concat vState "v" 0 ["Hel", "", "lo"] vItem
    [{ ctype := "text", text := "", transcript := "" }]
    (by decide) (by decide) (by decide) (by decide)

theorem itemsAgree_fields {s s' : ConvState} (h : itemsAgree s)
    (hi : s'.items = s.items) (hl : s'.item_lookup = s.item_lookup) : itemsAgree s' := by
  unfold itemsAgree at h ⊢
  rw [hi, hl]
  exact h

theorem aget_id_eq {s : ConvState} (hag : itemsAgree s) {k : String} {v : Item}
    (h : aget s.item_lookup k = some v) : v.id = k :=
  (hag.2.1 _ (aget_eq_some_mem h)).2

/-- The membership agreement the claim states, derived from `itemsAgree`. -/
theorem itemsAgree_mem_iff {s : ConvState} (h : itemsAgree s) (id : String) :
    (∃ it ∈ s.items, it.id = id) ↔ (aget s.item_lookup id).isSome := by
  constructor
  · rintro ⟨it, hmem, rfl⟩
    exact (aget_isSome_iff _ _).mpr (List.mem_map_of_mem Prod.fst (h.1 it hmem))
  · intro hs
    rcases exists_of_mem_keys ((aget_isSome_iff _ _).mp hs) with ⟨v, hv⟩
    rcases h.2.1 _ hv with ⟨hvmem, hvid⟩
    exact ⟨v, hvmem, hvid⟩

/-- In-place item mutation at a registered id preserves the agreement. -/
theorem setItem_agree {s : ConvState} {j : Item} (hag : itemsAgree s)
    (hsome : (aget s.item_lookup j.id).isSome) : itemsAgree (s.setItem j) := by
  obtain ⟨h1, h2, h3, h4⟩ := hag
  rcases Option.isSome_iff_exists.mp hsome with ⟨v, hv⟩
  have hvmem : (j.id, v) ∈ s.item_lookup := aget_eq_some_mem hv
  have hvit : v ∈ s.items ∧ v.id = j.id := h2 _ hvmem
  have hidmap : ∀ x ∈ s.items, ((fun x => if x.id = j.id then j else x) x).id = x.id := by
    intro x _
    by_cases hx : x.id = j.id <;> simp [hx]
  unfold ConvState.setItem
  refine ⟨?_, ?_, ?_, ?_⟩
  · intro x' hx'
    rcases List.mem_map.mp hx' with ⟨x, hx, rfl⟩
    by_cases hxe : x.id = j.id
    · simp only [if_pos hxe]
      exact mem_aset_self _ _ _
    · simp only [if_neg hxe]
      exact mem_aset_of_ne _ _ (h1 x hx) hxe
  · intro p hp
    rcases mem_aset_strong h4 hp with rfl | ⟨hpl, hpne⟩
    · refine ⟨?_, rfl⟩
      refine List.mem_map.mpr ⟨v, hvit.1, ?_⟩
      simp [hvit.2]
    · rcases h2 _ hpl with ⟨hpm, hpid⟩
      refine ⟨?_, hpid⟩
      refine List.mem_map.mpr ⟨p.2, hpm, ?_⟩
      simp [hpid, hpne]
  · show ((s.items.map _).map Item.id).Nodup
    rw [List.map_map]
    have : s.items.map (Item.id ∘ fun x => if x.id = j.id then j else x) = s.items.map Item.id :=
      List.map_congr_left (fun a ha => hidmap a ha)
    rw [this]
    exact h3
  · rw [keys_aset_of_mem j ((aget_isSome_iff _ _).mp hsome)]
    exact h4

/-- Registering a fresh item in both structures preserves the agreement. -/
theorem insert_agree {s : ConvState} {j : Item} (hag : itemsAgree s)
    (hnone : aget s.item_lookup j.id = none) :
    itemsAgree { s with item_lookup := aset s.item_lookup j.id j,
                        items := s.items ++ [j] } := by
  obtain ⟨h1, h2, h3, h4⟩ := hag
  have hkeys : j.id ∉ s.item_lookup.map Prod.fst := (aget_eq_none_iff _ _).mp hnone
  have hids : j.id ∉ s.items.map Item.id := by
    intro hmem
    rcases List.mem_map.mp hmem with ⟨x, hx, hxid⟩
    exact hkeys (hxid ▸ List.mem_map_of_mem Prod.fst (h1 x hx))
  rw [keys_aset_of_not_mem j hkeys]
  refine ⟨?_, ?_, ?_, ?_⟩
  · intro x hx
    rcases List.mem_append.mp hx with hx | hx
    · exact List.mem_append_left _ (h1 x hx)
    · simp only [List.mem_singleton] at hx
      subst hx
      exact List.mem_append_right _ (by simp)
  · intro p hp
    rcases List.mem_append.mp hp with hp | hp
    · rcases h2 _ hp with ⟨hpm, hpid⟩
      exact ⟨List.mem_append_left _ hpm, hpid⟩
    · simp only [List.mem_singleton] at hp
      subst hp
      exact ⟨List.mem_append_right _ (by simp), rfl⟩
  · rw [List.map_append]
    rw [List.nodup_append]
    refine ⟨h3, by simp, ?_⟩
    intro x hx hx'
    simp only [List.map_cons, List.map_nil, List.mem_singleton] at hx'
    subst hx'
    exact hids hx
  · rw [List.map_append]
    rw [List.nodup_append]
    refine ⟨h4, by simp, ?_⟩
    intro x hx hx'
    simp only [List.map_cons, List.map_nil, List.mem_singleton] at hx'
    subst hx'
    exact hkeys hx

/-- Deleting an item from both structures preserves the agreement. -/
theorem erase_agree {s : ConvState} {k : String} {it : Item} (hag : itemsAgree s)
    (hget : aget s.item_lookup k = some it) :
    itemsAgree { s with item_lookup := aerase s.item_lookup it.id,
                        items := s.items.erase it } := by
  obtain ⟨h1, h2, h3, h4⟩ := hag
  have hmem : (k, it) ∈ s.item_lookup := aget_eq_some_mem hget
  rcases h2 _ hmem with ⟨hitm, hitid⟩
  have hitems_nodup : s.items.Nodup := List.Nodup.of_map Item.id h3
  refine ⟨?_, ?_, ?_, ?_⟩
  · intro x hx
    have hx' : x ∈ s.items := List.mem_of_mem_erase hx
    have hxne : x ≠ it := by
      intro hxe
      subst hxe
      exact hitems_nodup.not_mem_erase hx
    have hxid : x.id ≠ it.id := by
      intro hxid
      exact hxne (List.inj_on_of_nodup_map h3 hx' hitm hxid)
    exact mem_aerase_of_ne _ (h1 x hx') hxid
  · intro p hp
    rcases mem_aerase_strong h4 hp with ⟨hpl, hpne⟩
    rcases h2 _ hpl with ⟨hpm, hpid⟩
    refine ⟨?_, hpid⟩
    have hpne' : p.2 ≠ it := by
      intro he
      exact hpne (by rw [← hpid, he])
    exact (List.mem_erase_of_ne hpne').mpr hpm
  · exact ((List.erase_sublist it s.items).map Item.id).nodup h3
  · exact ((aerase_sublist s.item_lookup it.id).map Prod.fst).nodup h4

/-- Whatever the queues hold, `itemCreatedRest` never touches `items` or
`item_lookup` and never changes the item's id. -/
theorem itemCreatedRest_frame (s : ConvState) (it : Item) :
    (itemCreatedRest s it).1.items = s.items ∧
    (itemCreatedRest s it).1.item_lookup = s.item_lookup ∧
    (itemCreatedRest s it).2.id = it.id := by
  unfold itemCreatedRest
  rcases hc : it.content with _ | cs <;> simp only [hc] <;>
    rcases ht : aget s.queued_transcript_items it.id with _ | tr <;> simp only [ht] <;>
      split_ifs <;> (try split) <;> simp

theorem insert_agree' {s s' : ConvState} {j : Item} (hag : itemsAgree s)
    (hnone : aget s.item_lookup j.id = none)
    (hi : s'.items = s.items ++ [j]) (hl : s'.item_lookup = aset s.item_lookup j.id j) :
    itemsAgree s' :=
  itemsAgree_fields (insert_agree hag hnone) (by rw [hi]) (by rw [hl])

/-- C4: every `process_event` call — raising or not — and `clear()` keep
the ordered `items` list and the id-keyed `item_lookup` in agreement, so an
item id is present in the list exactly when it is present in the lookup. -/
theorem c4_items_lookup_agree (s : ConvState) (e : Event) (buf : Bytes) (h : itemsAgree s) :
    itemsAgree ((processEvent s e buf).state) ∧ itemsAgree clearState ∧
    (∀ id, (∃ it ∈ s.items, it.id = id) ↔ (aget s.item_lookup id).isSome) := by
  refine ⟨?_, by simp [itemsAgree, clearState], fun id => itemsAgree_mem_iff h id⟩
  cases e with
  | itemCreated itIn =>
    simp only [processEvent, processItemCreated]
    rcases hq : aget s.queued_speech_items (itemFromIn itIn).id with _ | q
    · simp only [hq]
      rcases hlk : aget s.item_lookup (itemFromIn itIn).id with _ | old <;>
        simp only [hlk, Option.isNone_none, Option.isNone_some, PResult.state]
      · obtain ⟨hfi, hfl, hfid⟩ := itemCreatedRest_frame s (itemFromIn itIn)
        simp only [if_true]
        exact insert_agree' h (by rw [hfid]; exact hlk) (by rw [hfi]) (by rw [hfl, hfid])
      · obtain ⟨hfi, hfl, hfid⟩ := itemCreatedRest_frame s (itemFromIn itIn)
        simp only [Bool.false_eq_true, if_false]
        exact itemsAgree_fields h hfi hfl
    · simp only [hq]
      rcases hqa : q.audio with _ | aud <;> simp only [hqa]
      · rcases hlk : aget s.item_lookup (itemFromIn itIn).id with _ | old <;>
          simp only [hlk, Option.isNone_none, Option.isNone_some, PResult.state]
        · simp only [if_true]
          exact insert_agree h hlk
        · simp only [Bool.false_eq_true, if_false]
          exact h
      · rcases hlk : aget s.item_lookup (itemFromIn itIn).id with _ | old <;>
          simp only [hlk, Option.isNone_none, Option.isNone_some, PResult.state]
        · obtain ⟨hfi, hfl, hfid⟩ := itemCreatedRest_frame
            { s with queued_speech_items := aerase s.queued_speech_items (itemFromIn itIn).id }
            { itemFromIn itIn with formatted := { (itemFromIn itIn).formatted with audio := aud } }
          simp only [if_true]
          refine insert_agree' h ?_ (by rw [hfi]) (by rw [hfl])
          rw [hfid]
          exact hlk
        · obtain ⟨hfi, hfl, hfid⟩ := itemCreatedRest_frame
            { s with queued_speech_items := aerase s.queued_speech_items (itemFromIn itIn).id }
            { itemFromIn itIn with formatted := { (itemFromIn itIn).formatted with audio := aud } }
          simp only [Bool.false_eq_true, if_false]
          exact itemsAgree_fields h hfi hfl
  | itemTruncated id ms =>
    simp only [processEvent, processItemTruncated]
    rcases hg : s.getItem id with _ | it <;> simp only [hg, PResult.state]
    · exact h
    · apply setItem_agree h
      simp only [aget_id_eq h hg]
      rw [show aget s.item_lookup id = some it from hg]
      simp
  | itemDeleted id =>
    simp only [processEvent, processItemDeleted]
    rcases hg : s.getItem id with _ | it <;> simp only [hg, PResult.state]
    · exact h
    · exact erase_agree h hg
  | transcriptionCompleted id ci tr =>
    simp only [processEvent, processTranscriptionCompleted]
    rcases hg : s.getItem id with _ | it <;> simp only [hg, PResult.state]
    · exact itemsAgree_fields h rfl rfl
    · rcases hcon : it.content with _ | cs <;> simp only [hcon, PResult.state]
      · exact h
      · by_cases hci : ci < cs.length <;> simp only [hci, if_true, if_false, PResult.state]
        · apply setItem_agree h
          simp only [aget_id_eq h hg]
          rw [show aget s.item_lookup id = some it from hg]
          simp
        · exact h
  | speechStarted id ms =>
    simp only [processEvent, processSpeechStarted, PResult.state]
    exact itemsAgree_fields h rfl rfl
  | speechStopped id ms =>
    simp only [processEvent, processSpeechStopped]
    rcases hg : aget s.queued_speech_items id with _ | sp <;> simp only [hg, PResult.state]
    · exact h
    · exact itemsAgree_fields h rfl rfl
  | responseCreated r =>
    simp only [processEvent, processResponseCreated]
    split <;> simp only [PResult.state] <;> exact itemsAgree_fields h rfl rfl
  | outputItemAdded rid itIn =>
    simp only [processEvent, processOutputItemAdded]
    rcases hg : aget s.response_lookup rid with _ | r <;> simp only [hg, PResult.state]
    · exact h
    · exact itemsAgree_fields h rfl rfl
  | outputItemDone itq =>
    rcases itq with _ | itIn
    · simpa only [processEvent, processOutputItemDone, PResult.state] using h
    · simp only [processEvent, processOutputItemDone]
      rcases hg : s.getItem itIn.id with _ | found <;> simp only [hg, PResult.state]
      · exact h
      · apply setItem_agree h
        simp only [aget_id_eq h hg]
        rw [show aget s.item_lookup itIn.id = some found from hg]
        simp
  | contentPartAdded id p =>
    simp only [processEvent, processContentPartAdded]
    rcases hg : s.getItem id with _ | it <;> simp only [hg, PResult.state]
    · exact h
    · rcases hcon : it.content with _ | cs <;> simp only [hcon, PResult.state]
      · exact h
      · apply setItem_agree h
        simp only [aget_id_eq h hg]
        rw [show aget s.item_lookup id = some it from hg]
        simp
  | audioTranscriptDelta id ci d =>
    simp only [processEvent, processAudioTranscriptDelta]
    rcases hg : s.getItem id with _ | it <;> simp only [hg, PResult.state]
    · exact h
    · rcases hcon : it.content with _ | cs <;> simp only [hcon, PResult.state]
      · exact h
      · by_cases hci : ci < cs.length <;> simp only [hci, if_true, if_false, PResult.state]
        · apply setItem_agree h
          simp only [aget_id_eq h hg]
          rw [show aget s.item_lookup id = some it from hg]
          simp
        · exact h
  | audioDelta id ci d =>
    simp only [processEvent, processAudioDelta]
    rcases hg : s.getItem id with _ | it <;> simp only [hg, PResult.state] <;> exact h
  | textDelta id ci d =>
    simp only [processEvent, processTextDelta]
    rcases hg : s.getItem id with _ | it <;> simp only [hg, PResult.state]
    · exact h
    · rcases hcon : it.content with _ | cs <;> simp only [hcon, PResult.state]
      · exact h
      · by_cases hci : ci < cs.length <;> simp only [hci, if_true, if_false, PResult.state]
        · apply setItem_agree h
          simp only [aget_id_eq h hg]
          rw [show aget s.item_lookup id = some it from hg]
          simp
        · exact h
  | fnCallArgsDelta id d =>
    simp only [processEvent, processFnCallArgsDelta]
    rcases hg : s.getItem id with _ | it <;> simp only [hg, PResult.state]
    · exact h
    · rcases htool : it.formatted.tool with _ | tl <;> simp only [htool, PResult.state]
      · apply setItem_agree h
        simp only [aget_id_eq h hg]
        rw [show aget s.item_lookup id = some it from hg]
        simp
      · apply setItem_agree h
        simp only [aget_id_eq h hg]
        rw [show aget s.item_lookup id = some it from hg]
        simp
  | other t =>
    simpa only [processEvent, PResult.state] using h

/-- Witness for C4: a concrete item-created step from the empty state. -/
theorem c4_items_lookup_agree_witness :
    itemsAgree ((processEvent clearState (Event.itemCreated (userMsgIn "i1")) []).state) ∧
    itemsAgree clearState ∧
    (∀ id, (∃ it ∈ clearState.items, it.id = id) ↔ (aget clearState.item_lookup id).isSome) :=
  c4_items_lookup_agree clearState (Event.itemCreated (userMsgIn "i1")) []
    (by simp [itemsAgree, clearState])

end Realtime
